import Mathlib

/-!
Verification of the accessibility-snapshot core of firefox-dev-tools-mcp.

The development shallowly embeds the TypeScript sources:
* `take_snapshot.ts` — `assignUIDs`, `formatSnapshot`, `takeSnapshot`;
* `browser.ts` — the validation/error-classification logic of `FirefoxBrowser.goto`;
* `evaluate_script.ts` / `server.ts` — the zod argument schemas and the
  validate-then-dispatch structure of the tool-call handler.

Mutation in the original (in-place UID annotation, a shared counter cell) is
embedded as explicit state passing: `assignUIDs` takes the counter value and
returns the rewritten tree together with the final counter value.
-/

namespace FirefoxMCP

/-- A JavaScript `string | number` value (the type of `AccessibilityNode.value`).
Numbers are modelled as integers; the only truthiness facts the code relies on
are that `""` and `0` are falsy. -/
inductive SValue where
  | str (s : String)
  | num (n : Int)
  deriving Repr, DecidableEq

/-- JavaScript truthiness of a `string | number` value. -/
def SValue.truthy : SValue → Bool
  | .str s => s != ""
  | .num n => n != 0

/-- Rendering of a `string | number` value inside a template literal. -/
def SValue.render : SValue → String
  | .str s => s
  | .num n => toString n

/-- A `boolean | 'mixed'` value (the type of `checked` and `pressed`). -/
inductive BoolOrMixed where
  | bool (b : Bool)
  | mixed
  deriving Repr, DecidableEq

/-- The scalar attributes of an `AccessibilityNode` (take_snapshot.ts, the
interface `AccessibilityNode`); every attribute is optional in the source, so
each is an `Option` here, `none` meaning the property is absent. -/
structure NodeFields where
  role : Option String := none
  name : Option String := none
  value : Option SValue := none
  description : Option String := none
  keyshortcuts : Option String := none
  roledescription : Option String := none
  valuetext : Option String := none
  disabled : Option Bool := none
  expanded : Option Bool := none
  focused : Option Bool := none
  modal : Option Bool := none
  multiline : Option Bool := none
  multiselectable : Option Bool := none
  readonly : Option Bool := none
  required : Option Bool := none
  selected : Option Bool := none
  checked : Option BoolOrMixed := none
  pressed : Option BoolOrMixed := none
  level : Option Int := none
  valuemin : Option Int := none
  valuemax : Option Int := none
  autocomplete : Option String := none
  haspopup : Option String := none
  invalid : Option String := none
  orientation : Option String := none
  uid : Option String := none
  deriving Repr, DecidableEq

/-- An accessibility-tree node: scalar fields plus the ordered children list
(`children?: AccessibilityNode[]`; an absent list behaves like the empty one,
since the source only ever iterates it). -/
inductive ANode where
  | mk (fields : NodeFields) (children : List ANode)
  deriving Repr

/-- JavaScript truthiness of an optional string property. -/
def optStrTruthy : Option String → Bool
  | none => false
  | some s => s != ""

/-- JavaScript truthiness of an optional boolean property. -/
def optBoolTruthy : Option Bool → Bool
  | some true => true
  | _ => false

/-- JavaScript truthiness of an optional `string | number` property. -/
def optValTruthy : Option SValue → Bool
  | none => false
  | some v => v.truthy

/-- The fixed interactive-role list of `assignUIDs`. -/
def interactiveRoles : List String :=
  ["button", "link", "textbox", "searchbox", "checkbox", "radio",
   "combobox", "listbox", "option", "menuitem", "tab", "switch",
   "slider", "spinbutton"]

/-- The UID-eligibility test of `assignUIDs`:
`node.role && (interactiveRoles.includes(node.role) || verbose)`. -/
def eligible (f : NodeFields) (verbose : Bool) : Bool :=
  optStrTruthy f.role && (interactiveRoles.contains (f.role.getD "") || verbose)

/-- The verbose-property deletion block of `assignUIDs` (the eight `delete`
statements run when `verbose` is false). -/
def pruneVerbose (f : NodeFields) : NodeFields :=
  { f with description := none, keyshortcuts := none, roledescription := none,
           valuetext := none, autocomplete := none, haspopup := none,
           invalid := none, orientation := none }

mutual
/-- Embeds `assignUIDs(node, verbose, counter)` from take_snapshot.ts, with the
mutable counter cell made explicit: returns the rewritten node and the final
counter value.  The source pre-increments (`uid_${++counter.value}`), so an
eligible node gets `uid_<counter+1>`. -/
def assignUIDs : ANode → Bool → Nat → ANode × Nat
  | .mk f cs, verbose, counter =>
    let c1 := if eligible f verbose then counter + 1 else counter
    let f1 := if eligible f verbose
              then { f with uid := some ("uid_" ++ toString c1) } else f
    let f2 := if verbose then f1 else pruneVerbose f1
    let r := assignUIDsList cs verbose c1
    (.mk f2 r.1, r.2)

/-- The `node.children.forEach((child) => assignUIDs(child, verbose, counter))`
loop, threading the counter left to right. -/
def assignUIDsList : List ANode → Bool → Nat → List ANode × Nat
  | [], _, counter => ([], counter)
  | n :: ns, verbose, counter =>
    let r1 := assignUIDs n verbose counter
    let r2 := assignUIDsList ns verbose r1.2
    (r1.1 :: r2.1, r2.2)
end

/-- Embeds `s.repeat(n)` (used for `'  '.repeat(depth)` and `'='.repeat(60)`). -/
def strRepeat (s : String) : Nat → String
  | 0 => ""
  | n + 1 => s ++ strRepeat s n

/-- The state list built by `formatSnapshot` (the nine `states.push` sites, in
source order). -/
def statesOf (f : NodeFields) : List String :=
  (if optBoolTruthy f.disabled then ["disabled"] else []) ++
  (if f.checked = some (BoolOrMixed.bool true) then ["checked"] else []) ++
  (if f.checked = some BoolOrMixed.mixed then ["mixed"] else []) ++
  (if f.expanded = some true then ["expanded"] else []) ++
  (if f.expanded = some false then ["collapsed"] else []) ++
  (if optBoolTruthy f.selected then ["selected"] else []) ++
  (if optBoolTruthy f.focused then ["focused"] else []) ++
  (if optBoolTruthy f.required then ["required"] else []) ++
  (if optBoolTruthy f.readonly then ["readonly"] else [])

/-- Embeds `if (node.uid) parts.push(`[${node.uid}]`)`. -/
def uidPart (f : NodeFields) : List String :=
  if optStrTruthy f.uid then ["[" ++ f.uid.getD "" ++ "]"] else []

/-- Embeds `if (node.role) parts.push(node.role)`. -/
def rolePart (f : NodeFields) : List String :=
  if optStrTruthy f.role then [f.role.getD ""] else []

/-- Embeds `if (node.name) parts.push(`"${node.name}"`)`. -/
def namePart (f : NodeFields) : List String :=
  if optStrTruthy f.name then ["\"" ++ f.name.getD "" ++ "\""] else []

/-- Embeds `if (node.value) parts.push(`value="${node.value}"`)`. -/
def valuePart (f : NodeFields) : List String :=
  if optValTruthy f.value
  then ["value=\"" ++ (f.value.getD (SValue.str "")).render ++ "\""] else []

/-- Embeds `if (states.length > 0) parts.push(`(${states.join(', ')})`)`. -/
def statesPart (f : NodeFields) : List String :=
  if statesOf f ≠ [] then ["(" ++ String.intercalate ", " (statesOf f) ++ ")"]
  else []

/-- The `parts` array of `formatSnapshot`, in push order. -/
def nodeParts (f : NodeFields) : List String :=
  uidPart f ++ rolePart f ++ namePart f ++ valuePart f ++ statesPart f

mutual
/-- Embeds `formatSnapshot(node, depth)` from take_snapshot.ts: emit the node's line
(only when `parts` is non-empty, indented two spaces per depth), then the
children at `depth + 1`. -/
def formatSnapshot : ANode → Nat → String
  | .mk f cs, depth =>
    (if nodeParts f ≠ []
     then strRepeat "  " depth ++ String.intercalate " " (nodeParts f) ++ "\n"
     else "") ++ formatList cs (depth + 1)

/-- The `node.children.forEach` loop of `formatSnapshot`, accumulating into
`result` left to right. -/
def formatList : List ANode → Nat → String
  | [], _ => ""
  | n :: ns, depth => formatSnapshot n depth ++ formatList ns depth
end

/-- Embeds `args.verbose || false`. -/
def verboseFlag (vb : Option Bool) : Bool := optBoolTruthy vb

/-- Embeds `takeSnapshot` from take_snapshot.ts, as a function of the tree returned by
the delegated `page.accessibility.snapshot()` call (`none` when the page
exposes no tree) and the `verbose` argument.  Navigation is a side effect that
does not influence the returned text, so it does not appear here. -/
def takeSnapshot (snapshot : Option ANode) (vb : Option Bool) : String :=
  match snapshot with
  | none => "No accessibility tree available for this page."
  | some t =>
    let r := assignUIDs t (verboseFlag vb) 0
    "Accessibility Snapshot (" ++ toString r.2 ++ " interactive elements)\n" ++
      (strRepeat "=" 60 ++ "\n") ++ formatSnapshot r.1 0

/-! ### Pre-order views of a tree

`preorderFields` lists the scalar fields of every node in pre-order (a node
before its children, children in original order) and `childCounts` lists the
number of children of every node in the same order; together they determine a
tree completely, so they let tree-level statements be reduced to list-level
ones. -/

mutual
def preorderFields : ANode → List NodeFields
  | .mk f cs => f :: preorderFieldsList cs

def preorderFieldsList : List ANode → List NodeFields
  | [] => []
  | n :: ns => preorderFields n ++ preorderFieldsList ns
end

mutual
def childCounts : ANode → List Nat
  | .mk _ cs => cs.length :: childCountsList cs

def childCountsList : List ANode → List Nat
  | [] => []
  | n :: ns => childCounts n ++ childCountsList ns
end

/-- The per-node rewrite performed by `assignUIDs`, at counter value `c`. -/
def annotStep (f : NodeFields) (v : Bool) (c : Nat) : NodeFields × Nat :=
  let c1 := if eligible f v then c + 1 else c
  let f1 := if eligible f v then { f with uid := some ("uid_" ++ toString c1) }
            else f
  let f2 := if v then f1 else pruneVerbose f1
  (f2, c1)

/-- Embeds `assignUIDs` acting on a pre-order field list. -/
def annotFieldsList : List NodeFields → Bool → Nat → List NodeFields
  | [], _, _ => []
  | f :: fs, v, c =>
    (annotStep f v c).1 :: annotFieldsList fs v (annotStep f v c).2

/-- Number of UID-eligible entries of a field list. -/
def countEl : List NodeFields → Bool → Nat
  | [], _ => 0
  | f :: fs, v => (if eligible f v then 1 else 0) + countEl fs v

/-- A tree none of whose nodes carries a `uid` yet — the shape of every tree
the browser collaborator hands to `assignUIDs` (the delegated
`page.accessibility.snapshot()` never emits a `uid` property; only the
annotator adds it). -/
def UidFree (t : ANode) : Prop := ∀ f ∈ preorderFields t, f.uid = none

/-- How one node's fields may change under `assignUIDs` with flag `v`
(first argument: the original fields; second: the rewritten ones): every
non-verbose scalar field is untouched; the eight verbose-only fields are
untouched when `v` is true and removed when `v` is false; `uid` is written
exactly on eligible nodes. -/
def FieldRel (v : Bool) (f g : NodeFields) : Prop :=
  g.role = f.role ∧ g.name = f.name ∧ g.value = f.value ∧
  g.disabled = f.disabled ∧ g.expanded = f.expanded ∧ g.focused = f.focused ∧
  g.modal = f.modal ∧ g.multiline = f.multiline ∧
  g.multiselectable = f.multiselectable ∧ g.readonly = f.readonly ∧
  g.required = f.required ∧ g.selected = f.selected ∧
  g.checked = f.checked ∧ g.pressed = f.pressed ∧ g.level = f.level ∧
  g.valuemin = f.valuemin ∧ g.valuemax = f.valuemax ∧
  (if v then
    g.description = f.description ∧ g.keyshortcuts = f.keyshortcuts ∧
    g.roledescription = f.roledescription ∧ g.valuetext = f.valuetext ∧
    g.autocomplete = f.autocomplete ∧ g.haspopup = f.haspopup ∧
    g.invalid = f.invalid ∧ g.orientation = f.orientation
  else
    g.description = none ∧ g.keyshortcuts = none ∧
    g.roledescription = none ∧ g.valuetext = none ∧
    g.autocomplete = none ∧ g.haspopup = none ∧
    g.invalid = none ∧ g.orientation = none) ∧
  (if eligible f v then g.uid.isSome = true else g.uid = f.uid)

/-- Erasing the attributes `formatSnapshot` never reads (`pressed`, `modal`,
`multiline`, `multiselectable`, `level`, `valuemin`, `valuemax`). -/
def scrubIgnored (f : NodeFields) : NodeFields :=
  { f with pressed := none, modal := none, multiline := none,
           multiselectable := none, level := none, valuemin := none,
           valuemax := none }

mutual
/-- Embeds `scrubIgnored` applied to every node of a tree. -/
def scrubTree : ANode → ANode
  | .mk f cs => .mk (scrubIgnored f) (scrubList cs)

def scrubList : List ANode → List ANode
  | [] => []
  | n :: ns => scrubTree n :: scrubList ns
end

/-- The fields of a node the (amended) line-skip claim talks about: `uid`,
`role`, `name`, `value` absent, `expanded` absent, and every remaining
formatter-rendered state flag absent or false. -/
def SkippedFields (f : NodeFields) : Prop :=
  f.uid = none ∧ f.role = none ∧ f.name = none ∧ f.value = none ∧
  (f.disabled = none ∨ f.disabled = some false) ∧
  (f.checked = none ∨ f.checked = some (BoolOrMixed.bool false)) ∧
  f.expanded = none ∧
  (f.selected = none ∨ f.selected = some false) ∧
  (f.focused = none ∨ f.focused = some false) ∧
  (f.required = none ∨ f.required = some false) ∧
  (f.readonly = none ∨ f.readonly = some false)

/-- Embeds `List.isPrefixOf`-based containment scan: does `pat` occur inside the
list (JavaScript `String.prototype.includes` on the underlying characters)? -/
def listContains : List Char → List Char → Bool
  | _, [] => true
  | [], _ :: _ => false
  | a :: as, p :: ps => (List.isPrefixOf (p :: ps) (a :: as)) || listContains as (p :: ps)

/-- JavaScript `s.includes(pat)`. -/
def strContains (s pat : String) : Bool := listContains s.data pat.data

/-! ### The `goto` validation and error classification of browser.ts

`new URL(url)` and `page.goto` are platform/collaborator operations, so they
enter the model as data: `protocol` is `some p` when the URL parses with
protocol `p` (e.g. `"http:"`) and `none` when the `URL` constructor throws a
`TypeError`; `nav` is the outcome of the delegated `page.goto` call, which is
only consulted if validation passes. -/

/-- Outcome of the delegated `page.goto` call: success, or an error carrying
the underlying message the catch block classifies. -/
inductive NavResult where
  | success
  | failure (msg : String)

/-- Embeds `Invalid protocol: ${parsedUrl.protocol}. Only HTTP and HTTPS are supported.` -/
def protocolMsg (p : String) : String :=
  "Invalid protocol: " ++ p ++ ". Only HTTP and HTTPS are supported."

/-- Embeds `Invalid URL format: ${url}` -/
def formatMsg (url : String) : String := "Invalid URL format: " ++ url

/-- Embeds `Navigation timeout after ${timeout}ms for ${url}` -/
def timeoutMsg (timeout : Nat) (url : String) : String :=
  "Navigation timeout after " ++ toString timeout ++ "ms for " ++ url

/-- Embeds `Network error navigating to ${url}: ${error.message}` -/
def networkMsg (url msg : String) : String :=
  "Network error navigating to " ++ url ++ ": " ++ msg

/-- Embeds `Failed to navigate to ${url}: ${error.message}` -/
def failMsg (url msg : String) : String :=
  "Failed to navigate to " ++ url ++ ": " ++ msg

/-- Embeds `FirefoxBrowser.goto` from browser.ts: protocol validation first (the
thrown invalid-protocol `Error` is not a `TypeError`, so the catch rethrows it
unchanged; a `TypeError` from the `URL` constructor becomes the malformed-URL
message), then the delegated `page.goto`, whose failure message is classified
by substring tests on `'Timeout'` and `'net::'`. -/
def gotoResult (protocol : Option String) (url : String) (timeout : Nat)
    (nav : NavResult) : Except String Unit :=
  match protocol with
  | none => .error (formatMsg url)
  | some p =>
    if p = "http:" ∨ p = "https:" then
      match nav with
      | .success => .ok ()
      | .failure msg =>
        if strContains msg "Timeout" then .error (timeoutMsg timeout url)
        else if strContains msg "net::" then .error (networkMsg url msg)
        else .error (failMsg url msg)
    else .error (protocolMsg p)

/-! ### The argument schemas and the tool-call dispatch

The zod schemas of evaluate_script.ts / take_snapshot.ts and the
validate-then-dispatch structure of the CallTool handler in server.ts.  A JSON
argument value is a `JValue`; an argument object is a `RawArgs` (an absent key
is `none`; zod strips unknown keys, so only the keys some schema mentions are
carried).  `z.string().url()`'s URL well-formedness test is a collaborator
check and is passed in as `urlValid`.  zod error payloads are abbreviated to
short tags: the claims under verification concern only acceptance versus
rejection, never the error text of the validator. -/

/-- A JSON argument value. -/
inductive JValue where
  | str (s : String)
  | bool (b : Bool)
  | num (n : Int)
  | null
  deriving Repr, DecidableEq

/-- A raw tool-call argument object. -/
structure RawArgs where
  script : Option JValue := none
  url : Option JValue := none
  verbose : Option JValue := none
  deriving Repr, DecidableEq

/-- The validated arguments of evaluate_script (`z.infer` of its schema). -/
structure EvalArgsV where
  script : String
  url : Option String
  deriving Repr, DecidableEq

/-- The validated arguments of take_snapshot (`z.infer` of its schema). -/
structure SnapArgsV where
  url : Option String
  verbose : Option Bool
  deriving Repr, DecidableEq

/-- Embeds `z.string()` on a required key: present and a string — any string,
with no minimum length. -/
def parseRequiredString : Option JValue → Except String String
  | some (.str s) => .ok s
  | some _ => .error "expected string"
  | none => .error "required"

/-- Embeds `z.string().url().optional()`. -/
def parseOptionalUrl (urlValid : String → Bool) :
    Option JValue → Except String (Option String)
  | none => .ok none
  | some (.str s) => if urlValid s then .ok (some s) else .error "invalid url"
  | some _ => .error "expected string"

/-- Embeds `z.boolean().optional()`. -/
def parseOptionalBool : Option JValue → Except String (Option Bool)
  | none => .ok none
  | some (.bool b) => .ok (some b)
  | some _ => .error "expected boolean"

/-- Embeds `evaluateScriptSchema.parse` (evaluate_script.ts): `script` required
string, `url` optional URL string. -/
def evalSchemaParse (urlValid : String → Bool) (a : RawArgs) :
    Except String EvalArgsV :=
  match parseRequiredString a.script, parseOptionalUrl urlValid a.url with
  | .ok s, .ok u => .ok ⟨s, u⟩
  | .error e, _ => .error e
  | _, .error e => .error e

/-- Embeds `takeSnapshotSchema.parse` (take_snapshot.ts): `url` optional URL string,
`verbose` optional boolean. -/
def snapSchemaParse (urlValid : String → Bool) (a : RawArgs) :
    Except String SnapArgsV :=
  match parseOptionalUrl urlValid a.url, parseOptionalBool a.verbose with
  | .ok u, .ok vb => .ok ⟨u, vb⟩
  | .error e, _ => .error e
  | _, .error e => .error e

/-- A CallTool response: a text payload and the `isError` flag. -/
structure ToolResult where
  text : String
  isError : Bool
  deriving Repr, DecidableEq

/-- The CallTool dispatch of server.ts: pick the tool by name, run its schema
parse, and only on success invoke the tool's core logic (passed in as
`snapCore` / `evalCore`, each a function of the validated arguments); any
failure becomes an `Error: `-prefixed text payload with the error flag set. -/
def handleCallTool (urlValid : String → Bool) (name : String) (args : RawArgs)
    (snapCore : SnapArgsV → String) (evalCore : EvalArgsV → String) :
    ToolResult :=
  match name with
  | "take_snapshot" =>
    match snapSchemaParse urlValid args with
    | .error e => ⟨"Error: " ++ e, true⟩
    | .ok a => ⟨snapCore a, false⟩
  | "evaluate_script" =>
    match evalSchemaParse urlValid args with
    | .error e => ⟨"Error: " ++ e, true⟩
    | .ok a => ⟨evalCore a, false⟩
  | other => ⟨"Error: Unknown tool: " ++ other, true⟩

/-- A small concrete accessibility tree used to instantiate the theorems that
carry hypotheses. -/
def sampleTree : ANode :=
  .mk { role := some "WebArea", name := some "Demo" }
    [ .mk { role := some "heading", name := some "Title" } [],
      .mk { role := some "button", name := some "Sign in" } [],
      .mk { role := some "group" }
        [ .mk { role := some "link", name := some "Home" } [] ] ]

/-- A node whose only present attribute is `expanded: false` — every state
flag is absent or false, yet the formatter renders `(collapsed)` for it. -/
def collapsedNode : NodeFields := { expanded := some false }

/-- A concrete interactive child node used by witnesses. -/
def buttonChild : ANode := .mk { role := some "button", name := some "OK" } []

theorem countEl_append (xs ys : List NodeFields) (v : Bool) :
    countEl (xs ++ ys) v = countEl xs v + countEl ys v := by
  induction xs with
  | nil => simp [countEl]
  | cons f fs ih => simp [countEl, ih]; omega

theorem annotStep_counter (f : NodeFields) (v : Bool) (c : Nat) :
    (annotStep f v c).2 = c + (if eligible f v then 1 else 0) := by
  simp [annotStep]
  by_cases h : eligible f v <;> simp [h]

theorem annotFieldsList_append (xs ys : List NodeFields) (v : Bool) (c : Nat) :
    annotFieldsList (xs ++ ys) v c =
      annotFieldsList xs v c ++ annotFieldsList ys v (c + countEl xs v) := by
  induction xs generalizing c with
  | nil => simp [annotFieldsList, countEl]
  | cons f fs ih =>
    simp only [List.cons_append, annotFieldsList, countEl, List.cons.injEq,
      List.append_eq, true_and]
    rw [ih, annotStep_counter]
    congr 2
    omega

theorem assignUIDsList_length (ns : List ANode) (v : Bool) (c : Nat) :
    (assignUIDsList ns v c).1.length = ns.length := by
  induction ns generalizing c with
  | nil => simp [assignUIDsList]
  | cons n ms ih => simp [assignUIDsList, ih]

mutual
/-- Flattening `assignUIDs` to the pre-order field list: the rewritten tree's
field list is `annotFieldsList` of the original one, the final counter adds the
number of eligible nodes, and the shape (`childCounts`) is unchanged. -/
theorem assignUIDs_flatten (t : ANode) (v : Bool) (c : Nat) :
    preorderFields (assignUIDs t v c).1 =
        annotFieldsList (preorderFields t) v c ∧
      (assignUIDs t v c).2 = c + countEl (preorderFields t) v ∧
      childCounts (assignUIDs t v c).1 = childCounts t := by
  match t with
  | .mk f cs =>
    have ih := assignUIDsList_flatten cs v (annotStep f v c).2
    have hstep : (if eligible f v then c + 1 else c) = (annotStep f v c).2 := by
      simp [annotStep]
    refine ⟨?_, ?_, ?_⟩
    · simp only [assignUIDs, preorderFields, annotFieldsList, hstep, ih.1,
        List.cons.injEq, and_true]
      simp [annotStep]
    · simp only [assignUIDs]
      rw [hstep, ih.2.1, annotStep_counter]
      simp only [countEl]
      omega
    · simp only [assignUIDs, childCounts, hstep, ih.2.2,
        assignUIDsList_length, List.cons.injEq, and_self]

theorem assignUIDsList_flatten (ns : List ANode) (v : Bool) (c : Nat) :
    preorderFieldsList (assignUIDsList ns v c).1 =
        annotFieldsList (preorderFieldsList ns) v c ∧
      (assignUIDsList ns v c).2 = c + countEl (preorderFieldsList ns) v ∧
      childCountsList (assignUIDsList ns v c).1 = childCountsList ns := by
  match ns with
  | [] => simp [assignUIDsList, preorderFieldsList, annotFieldsList, countEl,
      childCountsList]
  | n :: ms =>
    have ihn := assignUIDs_flatten n v c
    have ihm := assignUIDsList_flatten ms v (assignUIDs n v c).2
    refine ⟨?_, ?_, ?_⟩
    · rw [show preorderFieldsList (n :: ms) = preorderFields n ++ preorderFieldsList ms from rfl,
        annotFieldsList_append]
      simp only [assignUIDsList, preorderFieldsList]
      rw [ihn.1, ihm.1, ihn.2.1]
    · simp only [assignUIDsList, preorderFieldsList, countEl_append]
      rw [ihm.2.1, ihn.2.1]
      omega
    · simp only [assignUIDsList, childCountsList, ihn.2.2, ihm.2.2]
end

theorem annotStep_uid (f : NodeFields) (v : Bool) (c : Nat) :
    (annotStep f v c).1.uid =
      if eligible f v then some ("uid_" ++ toString (c + 1)) else f.uid := by
  simp only [annotStep]
  have hp : ∀ g : NodeFields, (if v then g else pruneVerbose g).uid = g.uid := by
    intro g
    by_cases hv : v <;> simp [hv, pruneVerbose]
  rw [hp]
  by_cases he : eligible f v <;> simp [he]

theorem annotFieldsList_uid_isSome (fs : List NodeFields) (v : Bool) (c : Nat) :
    (annotFieldsList fs v c).map (fun f => f.uid.isSome) =
      fs.map (fun f => eligible f v || f.uid.isSome) := by
  induction fs generalizing c with
  | nil => simp [annotFieldsList]
  | cons f fs ih =>
    simp only [annotFieldsList, List.map_cons, ih, List.cons.injEq, and_true]
    rw [annotStep_uid]
    by_cases he : eligible f v <;> simp [he]

theorem annotFieldsList_filterMap_uid (fs : List NodeFields) (v : Bool)
    (c : Nat) (h : ∀ f ∈ fs, f.uid = none) :
    (annotFieldsList fs v c).filterMap (fun f => f.uid) =
      (List.range (countEl fs v)).map (fun i => "uid_" ++ toString (c + i + 1)) := by
  induction fs generalizing c with
  | nil => simp [annotFieldsList, countEl]
  | cons f fs ih =>
    have hf : f.uid = none := h f (by simp)
    have hfs : ∀ g ∈ fs, g.uid = none := fun g hg => h g (by simp [hg])
    by_cases he : eligible f v
    · rw [show countEl (f :: fs) v = countEl fs v + 1 by simp [countEl, he]; omega,
        List.range_succ_eq_map]
      simp only [annotFieldsList, List.filterMap_cons, annotStep_uid,
        annotStep_counter, he, if_pos, List.map_cons, List.map_map]
      rw [ih (c + 1) hfs]
      simp only [List.cons.injEq]
      constructor
      · simp
      · apply List.map_congr_left
        intro i _
        simp only [Function.comp_apply]
        congr 2
        omega
    · rw [show countEl (f :: fs) v = countEl fs v by simp [countEl, he]]
      simp only [annotFieldsList, List.filterMap_cons, annotStep_uid,
        annotStep_counter, he, if_neg, if_false, hf, Bool.false_eq_true,
        not_false_eq_true]
      rw [Nat.add_zero]
      exact ih c hfs

theorem annotStep_fieldRel (f : NodeFields) (v : Bool) (c : Nat) :
    FieldRel v f (annotStep f v c).1 := by
  cases v with
  | false =>
    by_cases he : eligible f false <;>
      simp [annotStep, FieldRel, pruneVerbose, he]
  | true =>
    by_cases he : eligible f true <;>
      simp [annotStep, FieldRel, pruneVerbose, he]

theorem annotFieldsList_fieldRel (fs : List NodeFields) (v : Bool) (c : Nat) :
    List.Forall₂ (FieldRel v) fs (annotFieldsList fs v c) := by
  induction fs generalizing c with
  | nil => exact List.Forall₂.nil
  | cons f fs ih =>
    exact List.Forall₂.cons (annotStep_fieldRel f v c) (ih _)

theorem forall₂_map_same {α β : Type} (r : β → β → Prop) (g h : α → β)
    (l : List α) (hp : ∀ x ∈ l, r (g x) (h x)) :
    List.Forall₂ r (l.map g) (l.map h) := by
  induction l with
  | nil => exact List.Forall₂.nil
  | cons a as ih =>
    exact List.Forall₂.cons (hp a (by simp))
      (ih fun x hx => hp x (by simp [hx]))

theorem eligible_mono (f : NodeFields) (h : eligible f false = true) :
    eligible f true = true := by
  simp only [eligible, Bool.or_true, Bool.and_true]
  simp only [eligible, Bool.or_false, Bool.and_eq_true] at h
  exact h.1

theorem nodeParts_of_skipped (f : NodeFields) (h : SkippedFields f) :
    nodeParts f = [] := by
  obtain ⟨hu, hr, hn, hv, hd, hc, he, hs, hf, hq, hro⟩ := h
  have hd2 : optBoolTruthy f.disabled = false := by
    rcases hd with h1 | h1 <;> simp [h1, optBoolTruthy]
  have hs2 : optBoolTruthy f.selected = false := by
    rcases hs with h1 | h1 <;> simp [h1, optBoolTruthy]
  have hf2 : optBoolTruthy f.focused = false := by
    rcases hf with h1 | h1 <;> simp [h1, optBoolTruthy]
  have hq2 : optBoolTruthy f.required = false := by
    rcases hq with h1 | h1 <;> simp [h1, optBoolTruthy]
  have hro2 : optBoolTruthy f.readonly = false := by
    rcases hro with h1 | h1 <;> simp [h1, optBoolTruthy]
  have hc1 : f.checked ≠ some (BoolOrMixed.bool true) := by
    rcases hc with h1 | h1 <;> simp [h1]
  have hc2 : f.checked ≠ some BoolOrMixed.mixed := by
    rcases hc with h1 | h1 <;> simp [h1]
  simp [nodeParts, uidPart, rolePart, namePart, valuePart, statesPart,
    statesOf, hu, hr, hn, hv, he, hd2, hs2, hf2, hq2, hro2, hc1, hc2,
    optStrTruthy, optValTruthy]

theorem nodeParts_scrub (f : NodeFields) :
    nodeParts (scrubIgnored f) = nodeParts f := by
  simp [nodeParts, uidPart, rolePart, namePart, valuePart, statesPart,
    statesOf, scrubIgnored]

mutual
theorem formatSnapshot_scrub (t : ANode) (d : Nat) :
    formatSnapshot (scrubTree t) d = formatSnapshot t d := by
  match t with
  | .mk f cs =>
    simp only [scrubTree, formatSnapshot, nodeParts_scrub,
      formatList_scrub cs (d + 1)]

theorem formatList_scrub (ns : List ANode) (d : Nat) :
    formatList (scrubList ns) d = formatList ns d := by
  match ns with
  | [] => rfl
  | n :: ms =>
    simp only [scrubList, formatList, formatSnapshot_scrub n d,
      formatList_scrub ms d]
end

/-! ### The claims -/

/-- C1: running the annotator on a tree (as delivered by the browser, hence
with no `uid` fields yet) assigns uid strings exactly to the nodes whose role
is non-empty and interactive-or-verbose, and the assigned values are
`uid_1 .. uid_k` in pre-order with no gaps or repeats, where `k` is the number
of eligible nodes: the pre-order list of present `uid` values is the range
`1..k` rendered as `uid_<n>`, a node carries a `uid` after the run exactly
when it is eligible, and the final counter is `k`. -/
theorem uid_assignment_correct (t : ANode) (v : Bool) (h : UidFree t) :
    (preorderFields (assignUIDs t v 0).1).filterMap (fun f => f.uid) =
      (List.range (countEl (preorderFields t) v)).map
        (fun i => "uid_" ++ toString (i + 1)) ∧
    (preorderFields (assignUIDs t v 0).1).map (fun f => f.uid.isSome) =
      (preorderFields t).map (fun f => eligible f v) ∧
    (assignUIDs t v 0).2 = countEl (preorderFields t) v := by
  refine ⟨?_, ?_, ?_⟩
  · rw [(assignUIDs_flatten t v 0).1, annotFieldsList_filterMap_uid _ _ _ h]
    apply List.map_congr_left
    intro i _
    simp
  · rw [(assignUIDs_flatten t v 0).1, annotFieldsList_uid_isSome]
    apply List.map_congr_left
    intro f hf
    rw [h f hf]
    simp
  · rw [(assignUIDs_flatten t v 0).2.1]
    simp

theorem uid_assignment_correct_witness :
    UidFree sampleTree ∧
      (preorderFields (assignUIDs sampleTree false 0).1).filterMap
          (fun f => f.uid) =
        (List.range (countEl (preorderFields sampleTree) false)).map
          (fun i => "uid_" ++ toString (i + 1)) :=
  ⟨by unfold UidFree; decide, (uid_assignment_correct sampleTree false (by unfold UidFree; decide)).1⟩

/-- C2: for a page whose tree retrieval yields a tree (with no pre-existing
`uid` fields), the text returned by take_snapshot is exactly the header
`Accessibility Snapshot (<k> interactive elements)\n`, then a separator of 60
`=` characters and a newline, then the formatted tree — where `<k>` is the
number of UID-eligible nodes, which equals the number of uids the annotator
assigned in that same call. -/
theorem takeSnapshot_header_correct (t : ANode) (vb : Option Bool)
    (h : UidFree t) :
    takeSnapshot (some t) vb =
      "Accessibility Snapshot (" ++
          toString (countEl (preorderFields t) (verboseFlag vb)) ++
          " interactive elements)\n" ++
        (strRepeat "=" 60 ++ "\n") ++
        formatSnapshot (assignUIDs t (verboseFlag vb) 0).1 0 ∧
    (strRepeat "=" 60).data = List.replicate 60 '=' ∧
    countEl (preorderFields t) (verboseFlag vb) =
      ((preorderFields (assignUIDs t (verboseFlag vb) 0).1).filterMap
        (fun f => f.uid)).length := by
  refine ⟨?_, by decide, ?_⟩
  · simp only [takeSnapshot,
      (assignUIDs_flatten t (verboseFlag vb) 0).2.1, Nat.zero_add]
  · rw [(assignUIDs_flatten t (verboseFlag vb) 0).1,
      annotFieldsList_filterMap_uid _ _ _ h]
    simp

theorem takeSnapshot_header_correct_witness :
    UidFree sampleTree ∧
      takeSnapshot (some sampleTree) (some false) =
        "Accessibility Snapshot (" ++
            toString (countEl (preorderFields sampleTree)
              (verboseFlag (some false))) ++
            " interactive elements)\n" ++
          (strRepeat "=" 60 ++ "\n") ++
          formatSnapshot (assignUIDs sampleTree (verboseFlag (some false)) 0).1 0 :=
  ⟨by unfold UidFree; decide, (takeSnapshot_header_correct sampleTree (some false) (by unfold UidFree; decide)).1⟩

/-- C6: when the delegated tree retrieval yields no tree, take_snapshot
returns exactly the fixed sentinel string — with no header text and no `=`
character anywhere in it — as a normal return value (the embedding of
`takeSnapshot` is a total function into `String`; the `!snapshot` branch is a
plain `return`, not a `throw`). -/
theorem takeSnapshot_no_tree (vb : Option Bool) :
    takeSnapshot none vb = "No accessibility tree available for this page." ∧
    strContains (takeSnapshot none vb) "Accessibility Snapshot (" = false ∧
    strContains (takeSnapshot none vb) "=" = false := by
  have heq : takeSnapshot none vb =
      "No accessibility tree available for this page." := rfl
  refine ⟨rfl, ?_, ?_⟩ <;> rw [heq] <;> decide

/-- C8: the annotator never deletes or reorders a node — the pre-order list of
child counts, which determines the tree shape, is unchanged — and node by node
(in pre-order) the only field changes are the addition of `uid` to eligible
nodes and, exactly when `verbose` is false, the removal of the eight
verbose-only fields; with `verbose` true those eight fields are untouched
(`FieldRel`). -/
theorem annotator_frame_effect (t : ANode) (v : Bool) :
    childCounts (assignUIDs t v 0).1 = childCounts t ∧
    List.Forall₂ (FieldRel v) (preorderFields t)
      (preorderFields (assignUIDs t v 0).1) := by
  refine ⟨(assignUIDs_flatten t v 0).2.2, ?_⟩
  rw [(assignUIDs_flatten t v 0).1]
  exact annotFieldsList_fieldRel _ _ _

/-- C9: on the same input tree, the nodes carrying a `uid` after a
`verbose=false` run are (position by position in pre-order) a subset of those
carrying one after a `verbose=true` run. -/
theorem verbose_gating_subset (t : ANode) :
    List.Forall₂ (fun x y => x ≤ y)
      ((preorderFields (assignUIDs t false 0).1).map (fun f => f.uid.isSome))
      ((preorderFields (assignUIDs t true 0).1).map (fun f => f.uid.isSome)) := by
  rw [(assignUIDs_flatten t false 0).1, (assignUIDs_flatten t true 0).1,
    annotFieldsList_uid_isSome, annotFieldsList_uid_isSome]
  apply forall₂_map_same
  intro f _
  by_cases h : eligible f false
  · simp [h, eligible_mono f h]
  · cases hu : f.uid.isSome <;> simp [h, hu]

/-- C10: the attributes `pressed`, `modal`, `multiline`, `multiselectable`,
`level`, `valuemin`, `valuemax` never influence the formatted output — erasing
all of them everywhere in a tree leaves `formatSnapshot`'s output unchanged —
and a node whose only present attributes are drawn from that set produces no
output at all. -/
theorem ignored_fields_no_influence :
    (∀ (t : ANode) (d : Nat),
      formatSnapshot (scrubTree t) d = formatSnapshot t d) ∧
    (∀ (p : Option BoolOrMixed) (m ml ms : Option Bool)
        (lv mn mx : Option Int) (d : Nat),
      formatSnapshot
        (ANode.mk
          { pressed := p, modal := m, multiline := ml, multiselectable := ms,
            level := lv, valuemin := mn, valuemax := mx } []) d = "") := by
  refine ⟨formatSnapshot_scrub, ?_⟩
  intro p m ml ms lv mn mx d
  simp [formatSnapshot, formatList, nodeParts, uidPart, rolePart, namePart,
    valuePart, statesPart, statesOf, optStrTruthy, optBoolTruthy, optValTruthy]

theorem append_ne_append (p q a b : String)
    (hl : p.data.length = q.data.length) (hne : p ≠ q) : p ++ a ≠ q ++ b := by
  intro h
  apply hne
  have hd : p.data ++ a.data = q.data ++ b.data := by
    have h2 := congrArg String.data h
    simpa [String.data_append] using h2
  exact String.ext (List.append_inj hd hl).1

theorem protocolMsg_view (p : String) :
    protocolMsg p =
      "Invalid pr" ++ ("otocol: " ++ (p ++ ". Only HTTP and HTTPS are supported.")) := by
  rw [protocolMsg,
    show ("Invalid protocol: " : String) = "Invalid pr" ++ "otocol: " by decide]
  repeat rw [String.append_assoc]

theorem formatMsg_view (u : String) :
    formatMsg u = "Invalid UR" ++ ("L format: " ++ u) := by
  rw [formatMsg,
    show ("Invalid URL format: " : String) = "Invalid UR" ++ "L format: " by decide]
  repeat rw [String.append_assoc]

theorem timeoutMsg_view (t : Nat) (u : String) :
    timeoutMsg t u =
      "Navigation" ++ (" timeout after " ++ (toString t ++ ("ms for " ++ u))) := by
  rw [timeoutMsg,
    show ("Navigation timeout after " : String) = "Navigation" ++ " timeout after " by decide]
  repeat rw [String.append_assoc]

theorem networkMsg_view (u m : String) :
    networkMsg u m =
      "Network er" ++ ("ror navigating to " ++ (u ++ (": " ++ m))) := by
  rw [networkMsg,
    show ("Network error navigating to " : String) = "Network er" ++ "ror navigating to " by decide]
  repeat rw [String.append_assoc]

theorem failMsg_view (u m : String) :
    failMsg u m = "Failed to " ++ ("navigate to " ++ (u ++ (": " ++ m))) := by
  rw [failMsg,
    show ("Failed to navigate to " : String) = "Failed to " ++ "navigate to " by decide]
  repeat rw [String.append_assoc]

/-- C3: the formatter composes a node's line from the parts, in the fixed
order uid, role, quoted name, value, parenthesized state list, joined by
single spaces and indented two spaces per depth; the value part is emitted iff
`value` is present and truthy, so a value of `0` or `""` renders no value
part. -/
theorem line_composition (f : NodeFields) (cs : List ANode) (d : Nat) :
    formatSnapshot (ANode.mk f cs) d =
      (if nodeParts f = [] then ""
       else strRepeat "  " d ++ String.intercalate " " (nodeParts f) ++ "\n") ++
        formatList cs (d + 1) ∧
    nodeParts f =
      uidPart f ++ rolePart f ++ namePart f ++ valuePart f ++ statesPart f ∧
    (valuePart f = [] ↔
      (f.value = none ∨ f.value = some (SValue.str "") ∨
        f.value = some (SValue.num 0))) ∧
    (∀ v, f.value = some v → v.truthy = true →
      valuePart f = ["value=\"" ++ v.render ++ "\""]) := by
  refine ⟨?_, rfl, ?_, ?_⟩
  · by_cases hp : nodeParts f = [] <;> simp [formatSnapshot, hp]
  · rcases hv : f.value with _ | v
    · simp [valuePart, optValTruthy, hv]
    · cases v with
      | str s =>
        by_cases hs : s = "" <;>
          simp [valuePart, optValTruthy, SValue.truthy, hv, hs]
      | num n =>
        by_cases hn : n = 0 <;>
          simp [valuePart, optValTruthy, SValue.truthy, hv, hn]
  · intro v hv htr
    simp [valuePart, optValTruthy, hv, htr]

theorem line_composition_witness :
    (SValue.str "abc").truthy = true ∧
    valuePart { value := some (SValue.str "abc") } = ["value=\"abc\""] :=
  ⟨by decide,
   (line_composition { value := some (SValue.str "abc") } [] 0).2.2.2
     (SValue.str "abc") rfl (by decide)⟩

/-- C4 as stated is false: `collapsedNode` has `role`, `name`, `value` (and
`uid`) absent and every state flag absent or false — its only present
attribute is `expanded: false` — yet the formatter emits the line
`(collapsed)` for it, because `expanded === false` contributes the state
`collapsed`. -/
theorem line_skip_counterexample :
    collapsedNode.role = none ∧ collapsedNode.name = none ∧
    collapsedNode.value = none ∧ collapsedNode.uid = none ∧
    collapsedNode.disabled = none ∧ collapsedNode.checked = none ∧
    collapsedNode.selected = none ∧ collapsedNode.focused = none ∧
    collapsedNode.required = none ∧ collapsedNode.readonly = none ∧
    collapsedNode.expanded = some false ∧
    formatSnapshot (ANode.mk collapsedNode []) 0 = "(collapsed)\n" ∧
    formatSnapshot (ANode.mk collapsedNode []) 0 ≠ "" := by decide

/-- C4 amended: for every node with `uid`, `role`, `name`, `value` absent,
`expanded` absent (an `expanded: false` flag renders `collapsed`, and a
`checked: 'mixed'` renders `mixed`), and the remaining rendered state flags
absent or false, the formatter produces no line for that node while its
children are still visited in order at depth one greater; and any node whose
parts are non-empty produces a line indented by two spaces per its own
depth. -/
theorem line_skip_correct (f : NodeFields) (cs : List ANode) (d : Nat)
    (h : SkippedFields f) :
    formatSnapshot (ANode.mk f cs) d = formatList cs (d + 1) ∧
    (∀ (g : NodeFields) (ds : List ANode) (e : Nat), nodeParts g ≠ [] →
      formatSnapshot (ANode.mk g ds) e =
        strRepeat "  " e ++ String.intercalate " " (nodeParts g) ++ "\n" ++
          formatList ds (e + 1)) := by
  refine ⟨?_, ?_⟩
  · simp [formatSnapshot, nodeParts_of_skipped f h]
  · intro g ds e hg
    simp [formatSnapshot, hg]

theorem line_skip_correct_witness :
    SkippedFields ({} : NodeFields) ∧
    formatSnapshot (ANode.mk {} [buttonChild]) 0 = formatList [buttonChild] 1 :=
  have h : SkippedFields ({} : NodeFields) := by unfold SkippedFields; decide
  ⟨h, (line_skip_correct {} [buttonChild] 0 h).1⟩

/-- C5 as stated is false: the evaluate_script schema (`script: z.string()`)
imposes no minimum length, so a call whose `script` argument is the empty
string passes validation and the core logic runs — it is not rejected. -/
theorem schema_empty_script_counterexample :
    evalSchemaParse (fun _ => true) { script := some (JValue.str "") } =
      Except.ok { script := "", url := none } ∧
    handleCallTool (fun _ => true) "evaluate_script"
        { script := some (JValue.str "") } (fun _ => "snapshot ran")
        (fun _ => "core logic ran") =
      { text := "core logic ran", isError := false } :=
  ⟨rfl, rfl⟩

/-- C5 amended: for every call to either tool the arguments are validated
against the fixed schema before the core logic runs — a failed parse yields an
error-flagged result that does not depend on the core-logic functions at all —
and evaluate_script's `script` is required (an absent key is rejected), but a
present empty-string `script` passes validation. -/
theorem schema_validation_before_core (uv : String → Bool) (args : RawArgs)
    (sc sc2 : SnapArgsV → String) (ec ec2 : EvalArgsV → String) :
    ((evalSchemaParse uv args).isOk = false →
      handleCallTool uv "evaluate_script" args sc ec =
          handleCallTool uv "evaluate_script" args sc2 ec2 ∧
        (handleCallTool uv "evaluate_script" args sc ec).isError = true) ∧
    ((snapSchemaParse uv args).isOk = false →
      handleCallTool uv "take_snapshot" args sc ec =
          handleCallTool uv "take_snapshot" args sc2 ec2 ∧
        (handleCallTool uv "take_snapshot" args sc ec).isError = true) ∧
    (args.script = none → (evalSchemaParse uv args).isOk = false) ∧
    (∀ s, evalSchemaParse uv { script := some (JValue.str s), url := none } =
      Except.ok { script := s, url := none }) := by
  refine ⟨?_, ?_, ?_, fun s => rfl⟩
  · intro h
    cases hp : evalSchemaParse uv args with
    | error e => simp [handleCallTool, hp]
    | ok a => rw [hp] at h; simp [Except.isOk, Except.toBool] at h
  · intro h
    cases hp : snapSchemaParse uv args with
    | error e => simp [handleCallTool, hp]
    | ok a => rw [hp] at h; simp [Except.isOk, Except.toBool] at h
  · intro h
    simp [evalSchemaParse, parseRequiredString, h, Except.isOk, Except.toBool]

theorem schema_validation_before_core_witness :
    (evalSchemaParse (fun _ => true) ({} : RawArgs)).isOk = false :=
  (schema_validation_before_core (fun _ => true) {} (fun _ => "") (fun _ => "")
    (fun _ => "") (fun _ => "")).2.2.1 rfl

/-- C7: for every URL whose parsed scheme is neither `http:` nor `https:`,
`goto` fails with the invalid-protocol message naming the scheme, and the
result does not depend on the delegated navigation outcome (no page load is
consulted); a malformed URL (the `URL` constructor throws) likewise fails
before navigation with the malformed-URL message; a failure message containing
`Timeout` is classified as the timeout error, one containing `net::` as the
network error, anything else as the generic error; and the five messages are
pairwise distinct for all parameter values. -/
theorem goto_error_classification (p u u2 m m2 : String) (timeout : Nat)
    (nav nav2 : NavResult) (h1 : p ≠ "http:") (h2 : p ≠ "https:") :
    gotoResult (some p) u timeout nav = .error (protocolMsg p) ∧
    gotoResult (some p) u timeout nav = gotoResult (some p) u timeout nav2 ∧
    gotoResult none u timeout nav = .error (formatMsg u) ∧
    gotoResult none u timeout nav = gotoResult none u timeout nav2 ∧
    (∀ msg, strContains msg "Timeout" = true →
      gotoResult (some "http:") u timeout (NavResult.failure msg) =
        .error (timeoutMsg timeout u)) ∧
    (∀ msg, strContains msg "Timeout" = false →
      strContains msg "net::" = true →
      gotoResult (some "http:") u timeout (NavResult.failure msg) =
        .error (networkMsg u msg)) ∧
    (∀ msg, strContains msg "Timeout" = false →
      strContains msg "net::" = false →
      gotoResult (some "http:") u timeout (NavResult.failure msg) =
        .error (failMsg u msg)) ∧
    protocolMsg p ≠ formatMsg u2 ∧
    protocolMsg p ≠ timeoutMsg timeout u2 ∧
    protocolMsg p ≠ networkMsg u2 m ∧
    protocolMsg p ≠ failMsg u2 m ∧
    formatMsg u ≠ timeoutMsg timeout u2 ∧
    formatMsg u ≠ networkMsg u2 m ∧
    formatMsg u ≠ failMsg u2 m ∧
    timeoutMsg timeout u ≠ networkMsg u2 m ∧
    timeoutMsg timeout u ≠ failMsg u2 m ∧
    networkMsg u m ≠ failMsg u2 m2 := by
  refine ⟨?_, ?_, rfl, rfl, ?_, ?_, ?_, ?_, ?_, ?_, ?_, ?_, ?_, ?_, ?_, ?_, ?_⟩
  · simp [gotoResult, h1, h2]
  · simp [gotoResult, h1, h2]
  · intro msg hc
    simp [gotoResult, hc]
  · intro msg hc hn
    simp [gotoResult, hc, hn]
  · intro msg hc hn
    simp [gotoResult, hc, hn]
  · rw [protocolMsg_view, formatMsg_view]
    exact append_ne_append _ _ _ _ (by decide) (by decide)
  · rw [protocolMsg_view, timeoutMsg_view]
    exact append_ne_append _ _ _ _ (by decide) (by decide)
  · rw [protocolMsg_view, networkMsg_view]
    exact append_ne_append _ _ _ _ (by decide) (by decide)
  · rw [protocolMsg_view, failMsg_view]
    exact append_ne_append _ _ _ _ (by decide) (by decide)
  · rw [formatMsg_view, timeoutMsg_view]
    exact append_ne_append _ _ _ _ (by decide) (by decide)
  · rw [formatMsg_view, networkMsg_view]
    exact append_ne_append _ _ _ _ (by decide) (by decide)
  · rw [formatMsg_view, failMsg_view]
    exact append_ne_append _ _ _ _ (by decide) (by decide)
  · rw [timeoutMsg_view, networkMsg_view]
    exact append_ne_append _ _ _ _ (by decide) (by decide)
  · rw [timeoutMsg_view, failMsg_view]
    exact append_ne_append _ _ _ _ (by decide) (by decide)
  · rw [networkMsg_view, failMsg_view]
    exact append_ne_append _ _ _ _ (by decide) (by decide)

theorem goto_error_classification_witness :
    ("ftp:" : String) ≠ "http:" ∧
    gotoResult (some "ftp:") "ftp://example.com" 30000 NavResult.success =
      .error (protocolMsg "ftp:") :=
  ⟨by decide,
   (goto_error_classification "ftp:" "ftp://example.com" "u" "m" "n" 30000
      NavResult.success NavResult.success (by decide) (by decide)).1⟩

end FirefoxMCP
